import Mathlib

/-!
Shallow embedding of the comment-analysis pipeline of `src/llm_integration`
(`analysis.py`, `config.py`) together with the numeric helpers it calls into
(`numpy` / `pandas` / `sklearn` behaviour, transcribed from their reference
implementations).  Machine floats are modelled by real numbers (and, for the
fully executable sorting machinery, by an arbitrary linearly ordered field,
instantiated at the rationals in concrete evaluations); Python `int` is
modelled by `Int`, Python strings by `String`, Python `None`-able values by
`Option`, and a raised exception by `Except.error`.  The external Ollama
service (`ollama_client.py`) and Python's `json.loads` are modelled as
parameters (an `Env` record), since they are outside this repository.
-/

namespace HN

/-! ## Python / JSON value model -/

/-- Values produced by Python's `json.loads` (and Python literals fed through
the same code paths).  JSON numbers are modelled as integers: the only numeric
field the pipeline reads (`intensity`) is specified as an integer 1-5, and
`int()` truncation of a non-integral number is outside every claim. -/
inductive JVal where
  | jnull : JVal
  | jbool : Bool → JVal
  | jnum : Int → JVal
  | jstr : String → JVal
  | jarr : List JVal → JVal
  | jobj : List (String × JVal) → JVal
deriving Repr

/-- A parsed JSON object: association list of fields, first binding wins on
lookup (as in a Python dict whose keys are unique). -/
abbrev JObj := List (String × JVal)

/-- Python dict `.get(key, default)`. -/
def jget (o : JObj) (k : String) (d : JVal) : JVal :=
  match o.lookup k with
  | some v => v
  | none => d

/-- Python dict `.get(key)` (default `None`). -/
def jget? (o : JObj) (k : String) : Option JVal := o.lookup k

/-- Python truthiness of a parsed JSON value (`bool(x)`). -/
def jTruthy : JVal → Bool
  | .jnull => false
  | .jbool b => b
  | .jnum n => n != 0
  | .jstr s => s != ""
  | .jarr xs => !xs.isEmpty
  | .jobj kvs => !kvs.isEmpty

/-- Python `x or default` on an optional dict value: `None` and falsy values
are replaced by the default. -/
def pyOr (v : Option JVal) (d : JVal) : JVal :=
  match v with
  | none => d
  | some x => if jTruthy x then x else d

/-! ## Python string helpers -/

/-- Python whitespace for `str.strip()` (ASCII part; the pipeline never feeds
it other Unicode space characters). -/
def isPySpace (c : Char) : Bool :=
  c = ' ' ∨ c = '\t' ∨ c = '\n' ∨ c = '\r' ∨ c = '\x0b' ∨ c = '\x0c'

/-- Python `str.strip()`. -/
def pyStrip (s : String) : String :=
  ((s.toList.dropWhile isPySpace).reverse.dropWhile isPySpace).reverse.asString

/-- Python `str.find(c)`: index of the first occurrence, `-1` if absent. -/
def pyFind (s : String) (c : Char) : Int :=
  match s.toList.findIdx? (· == c) with
  | some i => (i : Int)
  | none => -1

/-- Python `str.rfind(c)`: index of the last occurrence, `-1` if absent. -/
def pyRfind (s : String) (c : Char) : Int :=
  match s.toList.reverse.findIdx? (· == c) with
  | some i => ((s.toList.length - 1 - i : Nat) : Int)
  | none => -1

/-- Python `s[a:b]` for `0 ≤ a ≤ b` (the only way the source uses it: both
bounds come from successful `find`/`rfind` calls). -/
def pySlice (s : String) (a b : Int) : String :=
  (((s.toList.drop a.toNat).take (b - a).toNat)).asString

/-- First index at which `pat` occurs as a contiguous sublist of `l`. -/
def findSub (pat : List Char) : List Char → Option Nat
  | [] => if pat = [] then some 0 else none
  | c :: cs =>
    if pat.isPrefixOf (c :: cs) then some 0
    else match findSub pat cs with
      | some i => some (i + 1)
      | none => none

/-! ## JSON extraction and the stance classifier
(`_extract_json_line`, `classify_stance`) -/

/-- The deterministic fallback object of `_extract_json_line`. -/
def fallbackObj : JObj :=
  [("stance", .jstr "neutral"), ("intensity", .jnum 2), ("reasons", .jstr "fallback")]

/-- `json.loads` restricted to the strings this pipeline feeds it: every such
string starts with `\x7b` and ends with `\x7d`, so a successful parse yields an
object.  It is Python-library behaviour, not repository code, hence a
parameter everywhere below. -/
abbrev Loads := String → Option JObj

/-- `_extract_json_line(text)`: take the substring from the first `\x7b` to the
last `\x7d` (this is what the source's comment calls "the first \x7b...\x7d block")
and JSON-decode it; any failure yields the fallback object. -/
def extract_json_line (loads : Loads) (text : String) : JObj :=
  let s := pyFind text '{'
  let e := pyRfind text '}'
  if s = -1 ∨ e = -1 ∨ e ≤ s then fallbackObj
  else
    match loads (pySlice text s (e + 1)) with
    | some o => o
    | none => fallbackObj

/-- Python `int(x)` on a string: optional surrounding whitespace, optional
sign, then decimal digits (numeric-literal underscores are never produced by
`json.loads`, so they are not modelled).  `none` models a raised `ValueError`. -/
def pyIntOfString (s : String) : Option Int :=
  let t := pyStrip s
  let core : Option (List Char × Bool) :=
    match t.toList with
    | '-' :: rest => some (rest, true)
    | '+' :: rest => some (rest, false)
    | rest => some (rest, false)
  match core with
  | some (ds, neg) =>
    if ds ≠ [] ∧ ds.all (·.isDigit) then
      let v : Int := ds.foldl (fun acc c => acc * 10 + ((c.toNat - '0'.toNat : Nat) : Int)) 0
      some (if neg then -v else v)
    else none
  | none => none

/-- Python `int(x)` on a parsed JSON value; `none` models the raised
`TypeError`/`ValueError`. -/
def pyIntOfJVal : JVal → Option Int
  | .jnum n => some n
  | .jbool b => some (if b then 1 else 0)
  | .jstr s => pyIntOfString s
  | _ => none

/-- One stance record as built by `classify_stance` (and, for textless
comments, by `analyze_comments` directly). -/
structure StanceRecord where
  stance : String
  intensity : Int
  reason : JVal
deriving Repr

/-- The post-chat part of `classify_stance` (everything after `client.chat`):
extract, validate the enum, `int()`-convert and clamp the intensity.  `none`
models a raised exception: `int()` on an unconvertible `intensity` field
(runs first), or the set-membership test `stance not in {...}` on an
unhashable stance value (a JSON array or object). -/
def classify_stance_core (loads : Loads) (raw : String) : Option StanceRecord :=
  let parsed := extract_json_line loads raw
  let stance0 := jget parsed "stance" (.jstr "neutral")
  match pyIntOfJVal (jget parsed "intensity" (.jnum 2)) with
  | none => none
  | some i0 =>
    let reasons := jget parsed "reasons" (.jstr "fallback")
    match stance0 with
    | .jstr s =>
      some ⟨if s = "support" ∨ s = "oppose" ∨ s = "neutral" then s else "neutral",
        max 1 (min 5 i0), reasons⟩
    | .jarr _ => none
    | .jobj _ => none
    | _ => some ⟨"neutral", max 1 (min 5 i0), reasons⟩

/-! ## Summary parsing (`_strip_code_fences`, `_parse_summary_output`,
`generate_summary`) -/

mutual

/-- Python `repr()` of a parsed JSON value, as used by `str()` on containers.
Strings are single-quoted (the double-quote fallback for strings containing a
single quote is not modelled; no claim depends on it). -/
def pyReprJ : JVal → String
  | .jnull => "None"
  | .jbool b => if b then "True" else "False"
  | .jnum n => toString n
  | .jstr s => "'" ++ s ++ "'"
  | .jarr xs => "[" ++ pyReprJList xs ++ "]"
  | .jobj kvs => "\x7b" ++ pyReprJObj kvs ++ "\x7d"

def pyReprJList : List JVal → String
  | [] => ""
  | [x] => pyReprJ x
  | x :: xs => pyReprJ x ++ ", " ++ pyReprJList xs

def pyReprJObj : List (String × JVal) → String
  | [] => ""
  | [(k, v)] => "'" ++ k ++ "': " ++ pyReprJ v
  | (k, v) :: kvs => "'" ++ k ++ "': " ++ pyReprJ v ++ ", " ++ pyReprJObj kvs

end

/-- Python `str()` of a parsed JSON value. -/
def pyStrJ : JVal → String
  | .jstr s => s
  | v => pyReprJ v

/-- `_strip_code_fences`: `re.sub` of the lazy pattern "three backticks,
anything, three backticks" by the empty string; scanning resumes after each
removed match (fuel is the string length, ample since each match consumes at
least six characters; the fuel-exhausted branch is unreachable). -/
def stripFencesGo (ticks : List Char) : Nat → List Char → List Char
  | 0, l => l
  | fuel + 1, l =>
    match findSub ticks l with
    | none => l
    | some i =>
      let rest := l.drop (i + 3)
      match findSub ticks rest with
      | none => l
      | some j => l.take i ++ stripFencesGo ticks fuel (rest.drop (j + 3))

/-- `_strip_code_fences(text)`. -/
def strip_code_fences (s : String) : String :=
  (stripFencesGo "```".toList s.length s.toList).asString

/-- The summary triple returned by `_parse_summary_output` /
`generate_summary`. -/
structure SummaryOut where
  executive_summary : String
  key_points : List String
  next_steps : List String
deriving DecidableEq, Repr

/-- `_parse_summary_output(text)`: strip fences and whitespace, extract the
JSON object, then default / coerce / stringify the three fields. -/
def parse_summary_output (loads : Loads) (text : String) : SummaryOut :=
  let cleaned := pyStrip (strip_code_fences text)
  let parsed := extract_json_line loads cleaned
  let execSummary := pyOr (jget? parsed "executive_summary") (.jstr "")
  let keyPoints0 := pyOr (jget? parsed "key_points") (.jarr [])
  let nextSteps0 := pyOr (jget? parsed "next_steps") (.jarr [])
  let keyPoints := match keyPoints0 with | .jarr xs => xs | _ => []
  let nextSteps := match nextSteps0 with | .jarr xs => xs | _ => []
  { executive_summary := pyStrip (pyStrJ execSummary)
    key_points := (keyPoints.map (fun x => pyStrip (pyStrJ x))).filter (· ≠ "")
    next_steps := (nextSteps.map (fun x => pyStrip (pyStrJ x))).filter (· ≠ "") }

/-- The fixed system prompt of `analysis.py`. -/
def SYSTEM_PROMPT : String :=
  "You are a precise, concise analyst. When asked to output structured data, return strictly valid JSON without any surrounding text or code fences. Do not add any extra commentary."

/-- The fixed stance task instructions (braces written as their characters). -/
def STANCE_TASK_INSTRUCTIONS : String :=
  "You will receive:\n- The ORIGINAL POST content (may be empty).\n- A single COMMENT.\n\nTask:\n1) STANCE: \"support\", \"oppose\", or \"neutral\" toward the post's main claim(s).\n2) INTENSITY: 1–5 (1 = calm/weak, 5 = very strong).\n3) REASONS: short phrase (≤ 12 words) explaining your judgement.\n\nReturn exactly:\n\x7b\"stance\":\"support|oppose|neutral\",\"intensity\":<1-5>,\"reasons\":\"short phrase\"\x7d"

/-- The fixed summary task instructions. -/
def SUMMARY_TASK_INSTRUCTIONS : String :=
  "Given the ORIGINAL POST (may be empty) and a list of representative COMMENTS, produce a concise analysis.\nReturn EXACTLY the following JSON object (no markdown, no code fences):\n\x7b\n  \"executive_summary\": \"4–8 crisp sentences\",\n  \"key_points\": [\"bullet 1\", \"bullet 2\"],\n  \"next_steps\": [\"actionable 1\", \"actionable 2\"]\n\x7d"

/-! ## The external service and `json` as parameters -/

/-- The external collaborators of the pipeline: the Ollama client's two
operations (`ollama_client.py`, modelled as deterministic functions) and
Python's `json.loads`. -/
structure Env where
  embedF : String → List String → List (List ℝ)
  chatF : String → String → String → String
  loads : Loads

/-- One outbound service call, recorded in program order. -/
inductive SvcCall where
  | embed (model : String) (inputs : List String)
  | chat (model system user : String)
deriving Repr

/-- The user prompt built by `classify_stance`. -/
def stanceUserPrompt (post comment : String) : String :=
  "ORIGINAL POST:\n" ++ post ++ "\n\nCOMMENT:\n" ++ comment ++ "\n\n" ++ STANCE_TASK_INSTRUCTIONS

/-- The raw chat response `classify_stance` parses. -/
def stanceRaw (env : Env) (model comment post : String) : String :=
  env.chatF model SYSTEM_PROMPT (stanceUserPrompt post comment)

/-- `classify_stance` with its service-call log. -/
def classify_stanceL (env : Env) (model comment post : String) :
    Option StanceRecord × List SvcCall :=
  (classify_stance_core env.loads (stanceRaw env model comment post),
   [.chat model SYSTEM_PROMPT (stanceUserPrompt post comment)])

/-- `classify_stance(client, model, comment_text, original_post)`; `none`
models the exception `int()` can raise. -/
def classify_stance (env : Env) (model comment post : String) : Option StanceRecord :=
  (classify_stanceL env model comment post).1

/-- The user prompt built by `generate_summary` (comments joined as bullets). -/
def summaryUserPrompt (post : String) (reps : List String) : String :=
  "ORIGINAL POST:\n" ++ post ++ "\n\nCOMMENTS:\n" ++
    "\n".intercalate (reps.map (fun c => "- " ++ c)) ++ "\n\n" ++ SUMMARY_TASK_INSTRUCTIONS

/-- `generate_summary` with its service-call log.  The source wraps
`_parse_summary_output` in `try/except` whose handler returns the raw text as
the summary, but `_parse_summary_output` is total on strings (every parse
failure is already absorbed inside `_extract_json_line`), so the handler is
dead code and the function always returns `_parse_summary_output`'s value. -/
def generate_summaryL (env : Env) (model post : String) (reps : List String) :
    SummaryOut × List SvcCall :=
  let prompt := summaryUserPrompt post reps
  (parse_summary_output env.loads (env.chatF model SYSTEM_PROMPT prompt),
   [.chat model SYSTEM_PROMPT prompt])

/-- `generate_summary(client, model, original_post, representative_comments)`. -/
def generate_summary (env : Env) (model post : String) (reps : List String) : SummaryOut :=
  (generate_summaryL env model post reps).1

/-- Failure of the `\x7b`-to-`\x7d` extraction in `_extract_json_line`: no brace
pair, or `json.loads` fails on the extracted substring. -/
def extractFails (loads : Loads) (text : String) : Prop :=
  (pyFind text '{' = -1 ∨ pyRfind text '}' = -1 ∨ pyRfind text '}' ≤ pyFind text '{')
  ∨ loads (pySlice text (pyFind text '{') (pyRfind text '}' + 1)) = none

/-! ## numpy scalar argsort (introsort) and the pandas descending sort

Transcribed from numpy's reference implementation
(`npysort/quicksort.c.src`, `aquicksort`, with `SMALL_QUICKSORT = 15` and
`depth_limit = npy_get_msb(num) * 2`, falling back to `npysort/heapsort.c.src`
`aheapsort`) and from pandas' `nargsort` (reverse, ascending argsort, index
back-reference, reverse), which is what `DataFrame.sort_values` with a single
`by` column and `ascending=False` executes.  This is the portable scalar code
path; hardware-dispatched SIMD variants differ only in which unstable
permutation they produce.  `tosort` is the index permutation being built;
every loop carries a fuel that strictly dominates its iteration count, so the
fuel-exhausted branches are unreachable. -/

section ArgSort

variable {α : Type} [LinearOrder α] [Inhabited α]

/-- `v[tosort[p]]` (all accesses the original makes are in bounds). -/
def vAt (v : List α) (t : List Nat) (p : Nat) : α :=
  v.getD (t.getD p 0) default

/-- `INTP_SWAP(*p, *q)` on the index array. -/
def idxSwap (t : List Nat) (p q : Nat) : List Nat :=
  let x := t.getD p 0
  let y := t.getD q 0
  (t.set p y).set q x

/-- `do ++pi; while (LT(v[*pi], vp))`. -/
def scanUp (v : List α) (t : List Nat) (vp : α) : Nat → Nat → Nat
  | 0, pi => pi + 1
  | fuel + 1, pi => if vAt v t (pi + 1) < vp then scanUp v t vp fuel (pi + 1) else pi + 1

/-- `do --pj; while (LT(vp, v[*pj]))`. -/
def scanDown (v : List α) (t : List Nat) (vp : α) : Nat → Nat → Nat
  | 0, pj => pj - 1
  | fuel + 1, pj => if vp < vAt v t (pj - 1) then scanDown v t vp fuel (pj - 1) else pj - 1

/-- The Sedgewick partition loop of `aquicksort`; returns the updated index
array and the final `pi`. -/
def partLoop (v : List α) (vp : α) : Nat → List Nat → Nat → Nat → List Nat × Nat
  | 0, t, pi, _ => (t, pi)
  | fuel + 1, t, pi, pj =>
    let pi1 := scanUp v t vp (v.length + 2) pi
    let pj1 := scanDown v t vp (v.length + 2) pj
    if pi1 ≥ pj1 then (t, pi1)
    else partLoop v vp fuel (idxSwap t pi1 pj1) pi1 pj1

/-- Inner shift loop of the insertion sort:
`while (pj > pl && LT(vp, v[*pk])) *pj-- = *pk--;` then `*pj = vi`. -/
def insInner (v : List α) (pl : Nat) (vp : α) (vi : Nat) : Nat → List Nat → Nat → List Nat
  | 0, t, pj => t.set pj vi
  | fuel + 1, t, pj =>
    if pj > pl ∧ vp < vAt v t (pj - 1) then
      insInner v pl vp vi fuel (t.set pj (t.getD (pj - 1) 0)) (pj - 1)
    else t.set pj vi

/-- Insertion sort over the segment `[pl, pr]` of the index array:
`for (pi = pl + 1; pi <= pr; ++pi)`. -/
def insLoop (v : List α) (pl pr : Nat) : Nat → List Nat → Nat → List Nat
  | 0, t, _ => t
  | fuel + 1, t, pi =>
    if pi ≤ pr then
      let vi := t.getD pi 0
      insLoop v pl pr fuel (insInner v pl (v.getD vi default) vi (pi + 2) t pi) (pi + 1)
    else t

/-- 1-based access `a[x]` of `aheapsort`, where `a = tosort + off - 1`. -/
def hsAt (t : List Nat) (off x : Nat) : Nat := t.getD (off + x - 1) 0

/-- 1-based update `a[x] = val`. -/
def hsSet (t : List Nat) (off x val : Nat) : List Nat := t.set (off + x - 1) val

/-- The sift-down loop shared by both phases of `aheapsort`. -/
def hsSift (v : List α) (off n tmp : Nat) : Nat → List Nat → Nat → Nat → List Nat
  | 0, t, i, _ => hsSet t off i tmp
  | fuel + 1, t, i, j =>
    if j ≤ n then
      let j1 :=
        if j < n ∧ v.getD (hsAt t off j) default < v.getD (hsAt t off (j + 1)) default then
          j + 1
        else j
      if v.getD tmp default < v.getD (hsAt t off j1) default then
        hsSift v off n tmp fuel (hsSet t off i (hsAt t off j1)) j1 (j1 + j1)
      else hsSet t off i tmp
    else hsSet t off i tmp

/-- Heap construction: `for (l = n >> 1; l > 0; --l)`. -/
def hsBuild (v : List α) (off n : Nat) : Nat → List Nat → List Nat
  | 0, t => t
  | l + 1, t => hsBuild v off n l (hsSift v off n (hsAt t off (l + 1)) (n + 2) t (l + 1) ((l + 1) * 2))

/-- Heap extraction: `for (; n > 1;)`. -/
def hsPop (v : List α) (off : Nat) : Nat → List Nat → List Nat
  | 0, t => t
  | 1, t => t
  | m + 1, t =>
    let tmp := hsAt t off (m + 1)
    let t1 := hsSet t off (m + 1) (hsAt t off 1)
    hsPop v off m (hsSift v off m tmp (m + 2) t1 1 2)

/-- `aheapsort(vv, tosort + off, n)`. -/
def aheapsortSeg (v : List α) (t : List Nat) (off n : Nat) : List Nat :=
  hsPop v off n (hsBuild v off n (n / 2) t)

/-- The outer control of `aquicksort`: partition while the segment holds more
than `SMALL_QUICKSORT = 15` entries (falling back to heapsort when the depth
budget is exhausted), insertion-sort small segments, then pop the explicit
stack. -/
def aqsLoop (v : List α) : Nat → List Nat → Nat → Nat → List (Nat × Nat) → Int → List Nat
  | 0, t, _, _, _, _ => t
  | fuel + 1, t, pl, pr, stack, depth =>
    if pr - pl > 15 then
      if depth < 0 then
        let t1 := aheapsortSeg v t pl (pr - pl + 1)
        match stack with
        | [] => t1
        | (a, b) :: rest => aqsLoop v fuel t1 a b rest (depth - 1)
      else
        let pm0 := pl + (pr - pl) / 2
        let t1 := if vAt v t pm0 < vAt v t pl then idxSwap t pm0 pl else t
        let t2 := if vAt v t1 pr < vAt v t1 pm0 then idxSwap t1 pr pm0 else t1
        let t3 := if vAt v t2 pm0 < vAt v t2 pl then idxSwap t2 pm0 pl else t2
        let vp := vAt v t3 pm0
        let t4 := idxSwap t3 pm0 (pr - 1)
        let tpi := partLoop v vp (v.length + 2) t4 pl (pr - 1)
        let t6 := idxSwap tpi.1 tpi.2 (pr - 1)
        if tpi.2 - pl < pr - tpi.2 then
          aqsLoop v fuel t6 pl (tpi.2 - 1) ((tpi.2 + 1, pr) :: stack) (depth - 1)
        else
          aqsLoop v fuel t6 (tpi.2 + 1) pr ((pl, tpi.2 - 1) :: stack) (depth - 1)
    else
      let t1 := insLoop v pl pr (pr + 2) t (pl + 1)
      match stack with
      | [] => t1
      | (a, b) :: rest => aqsLoop v fuel t1 a b rest depth

/-- `np.argsort(v, kind="quicksort")` (ascending). -/
def npArgsortQuick (v : List α) : List Nat :=
  aqsLoop v (2 * v.length + 8) (List.range v.length) 0 (v.length - 1) []
    ((Nat.log2 v.length : Int) * 2)

/-- pandas `nargsort(vals, kind="quicksort", ascending=False)` (no NaNs in the
modelled values): reverse the array and the index range, argsort ascending,
map back, reverse the indexer. -/
def nargsortDesc (vals : List α) : List Nat :=
  let n := vals.length
  let perm := npArgsortQuick vals.reverse
  (perm.map (fun p => (List.range n).reverse.getD p 0)).reverse

end ArgSort

/-- Reorder `rows` by a positional indexer (a dataframe `take`). -/
def applyIndexer {β : Type} (rows : List β) (indexer : List Nat) (d : β) : List β :=
  indexer.map (fun i => rows.getD i d)

/-- pandas `DataFrame.head(n)`: first `n` rows, or all but the last `-n` rows
for negative `n`. -/
def pyHead {β : Type} (n : Int) (l : List β) : List β :=
  if 0 ≤ n then l.take n.toNat else l.take (l.length - (-n).toNat)

/-- `min` of a numpy vector (`np.min` raises on an empty one; every call site
below reaches it only with a non-empty vector, where the default is unused). -/
def listMinD {α : Type} [LinearOrder α] (l : List α) (d : α) : α :=
  match l with
  | [] => d
  | x :: xs => xs.foldl min x

/-- `max` of a numpy vector. -/
def listMaxD {α : Type} [LinearOrder α] (l : List α) (d : α) : α :=
  match l with
  | [] => d
  | x :: xs => xs.foldl max x

/-- The min-max normalisation idiom the source repeats: spread below `1e-9`
yields a zero vector of length `n` (the call sites pass the `n` the source
uses in its `np.zeros(n)`), otherwise `(x - min) / (max - min)`. -/
def minmaxNormN {α : Type} [LinearOrderedField α] (n : Nat) (l : List α) : List α :=
  let mn := listMinD l 0
  let mx := listMaxD l 0
  if mx - mn < 1e-9 then List.replicate n 0
  else l.map (fun x => (x - mn) / (mx - mn))

/-! ## Cosine similarity, novelty scorer and MMR (real-valued)

Float64 arithmetic is modelled by `ℝ`.  `sklearn.cosine_similarity`
l2-normalises each row, substituting norm 1 for zero-norm rows; since a
zero-norm row is the zero vector, its similarities are 0, which coincides
with Lean's `x / 0 = 0` convention, so no case split is needed. -/

noncomputable section RealPipeline

/-- Dot product of two rows. -/
def dotList (x y : List ℝ) : ℝ := (List.zipWith (fun a b => a * b) x y).sum

/-- Cosine similarity of two rows. -/
def cosineSim (x y : List ℝ) : ℝ :=
  dotList x y / (Real.sqrt (dotList x x) * Real.sqrt (dotList y y))

/-- `np.mean` (the empty case, `0` here and `nan` in numpy, is unreachable at
every call site below). -/
def npMean (l : List ℝ) : ℝ := l.sum / l.length

/-- Ascending `np.sort` of one row (any comparison sort agrees on the sorted
value sequence). -/
def sortRow (l : List ℝ) : List ℝ := l.mergeSort (fun a b => decide (a ≤ b))

/-- Row `i` of the pairwise cosine-similarity matrix without its diagonal
entry.  The original sets the diagonal to `-inf` and then takes a slice of at
most `n-1` top entries of the sorted row, so the `-inf` sentinel — strictly
below every float — is never selected; dropping it before sorting is the same
function.  (At the unreachable effective `k = 0` — the config promises a
positive `topk` — numpy would select the whole row including `-inf` and
degenerate to infinities; that case is mapped to the off-diagonal row here.) -/
def simRowOffDiag (emb : List (List ℝ)) (i : Nat) : List ℝ :=
  ((List.range emb.length).filter (fun j => j ≠ i)).map
    (fun j => cosineSim (emb.getD i []) (emb.getD j []))

/-- The numpy slice `row[-m:]` of an ascending-sorted off-diagonal row whose
full version carries the `-inf` sentinel in front: last `m` entries for
`m ≥ 1`; for `m ≤ -1` the slice start is the literal index `-m`, i.e. drop
`-m` entries of the full row = drop `-m - 1` off-diagonal entries. -/
def npTailSlice (m : Int) (l : List ℝ) : List ℝ :=
  if 1 ≤ m then l.drop (l.length - m.toNat)
  else if m ≤ -1 then l.drop ((-m).toNat - 1)
  else l

/-- The effective neighbour count `k_eff = min(k, max(1, n - 1))`. -/
def kEff (k : Int) (n : Nat) : Int := min k (max 1 ((n : Int) - 1))

/-- The pre-normalisation novelty vector: `1 - mean(top-k similarities)` per
row. -/
def noveltyRaw (emb : List (List ℝ)) (k : Int) : List ℝ :=
  (List.range emb.length).map (fun i =>
    1 - npMean (npTailSlice (kEff k emb.length) (sortRow (simRowOffDiag emb i))))

/-- `novelty_scores(emb, k)`. -/
def novelty_scores (emb : List (List ℝ)) (k : Int) : List ℝ :=
  if emb.length = 0 then []
  else if emb.length = 1 then [0]
  else minmaxNormN emb.length (noveltyRaw emb k)

/-- Spec-side description of the pre-normalisation novelty (the refinement
target): for each item, `1` minus the mean of its `min(topk, 10, N-1)`
largest pairwise similarities to the other items. -/
def noveltySpecRaw (emb : List (List ℝ)) (topk : Int) : List ℝ :=
  (List.range emb.length).map (fun i =>
    1 - npMean (((sortRow (simRowOffDiag emb i)).reverse).take
      (min topk (min 10 ((emb.length : Int) - 1))).toNat))

/-- `max` of a nonempty set of floats, seeded with its first element. -/
def maxSimSel (cands : List (List ℝ)) (i : Nat) (selected : List Nat) : ℝ :=
  match selected with
  | [] => 0
  | s :: ss =>
    (ss.map (fun j => cosineSim (cands.getD i []) (cands.getD j []))).foldl max
      (cosineSim (cands.getD i []) (cands.getD s []))

/-- `np.argmax`: the first index attaining the maximum (numpy's documented
tie rule). -/
def argmaxIdx {β : Type} [LinearOrder β] (l : List β) (d : β) : Nat :=
  l.findIdx (fun y => decide (y = listMaxD l d))

/-- The selection loop of `mmr`: while candidates remain and fewer than `k`
are selected, pick the first unselected argmax of the MMR score
(`λ·sim_to_query − (1−λ)·max sim to the already selected`); already selected
indices are forced to `-inf` (`⊥` in `WithBot ℝ`), and an `-inf` argmax breaks
the loop.  Fuel: one unit per selection, `n + 1` at the call site. -/
def mmrLoop (simq : List ℝ) (cands : List (List ℝ)) (lam : ℝ) (k : Int) :
    Nat → List Nat → List Nat → List Nat
  | 0, selected, _ => selected
  | fuel + 1, selected, remaining =>
    if remaining = [] ∨ ¬((selected.length : Int) < k) then selected
    else
      match selected with
      | [] =>
        let ni := argmaxIdx simq 0
        mmrLoop simq cands lam k fuel [ni] (remaining.erase ni)
      | s :: ss =>
        let scores := (List.range cands.length).map (fun i =>
          if i ∈ (s :: ss : List Nat) then (⊥ : WithBot ℝ)
          else ((lam * simq.getD i 0 - (1 - lam) * maxSimSel cands i (s :: ss) : ℝ) : WithBot ℝ))
        let ni := argmaxIdx scores ⊥
        if scores.getD ni ⊥ = ⊥ then selected
        else mmrLoop simq cands lam k fuel ((s :: ss) ++ [ni]) (remaining.erase ni)

/-- `mmr(query_vec, candidate_vecs, lambda_param, k)`. -/
def mmr (query : List ℝ) (cands : List (List ℝ)) (lam : ℝ) (k : Int) : List Nat :=
  if cands.length = 0 then []
  else
    mmrLoop (cands.map (fun c => cosineSim c query)) cands lam k
      (cands.length + 1) [] (List.range cands.length)

end RealPipeline

/-! ## The ranking aggregator (`score_and_rank`) -/

/-- An input comment record (a Python dict).  `upvotes`'s outer `Option` is
key presence in the dict, the inner one is the `None` value; the fields the
pipeline never reads (`age`, `timestamp`, `depth`, `parent_id`) pass through
the dataframe untouched and are dropped by `df_to_list`, so they are omitted.
The scoring scalar type is a parameter: `ℝ` models the pipeline's float64,
while concrete sorting evaluations instantiate it at `ℚ` (both carry exactly
the comparison behaviour the sort observes on the given inputs). -/
structure Comment (α : Type) where
  id : Option String := none
  author : Option String := none
  text : Option String := none
  upvotes : Option (Option α) := none
deriving Repr

/-- A row of the dataframe handed to `score_and_rank`: the merged dict
`\x7b**comment, stance, intensity, reason, novelty, controversy\x7d`. -/
structure MergedRow (α : Type) where
  c : Comment α
  stance : String
  intensity : Int
  reason : JVal
  novelty : α
  controversy : α
deriving Repr

/-- A fully scored dataframe row (after the `novelty` / `controversy` /
`popularity` / `must_read_score` column assignments, which overwrite any
same-named dict keys). -/
structure ScoredRow (α : Type) where
  c : Comment α
  stance : String
  intensity : Int
  reason : JVal
  novelty : α
  controversy : α
  popularity : α
  must_read_score : α
deriving Repr

/-- A raised pandas/Python exception. -/
inductive PyErr where
  | lengthMismatch (col : String)
  | unpackMismatch
  | intConvError
deriving DecidableEq, Repr

/-- Python tuple unpacking `w1, w2, w3 = seq` (a raised `ValueError` when the
sequence does not have exactly three entries is `none`). -/
def pyUnpack3 {α : Type} (l : List α) : Option (α × α × α) :=
  match l with
  | [a, b, c] => some (a, b, c)
  | _ => none

/-- The all-default row backing the (never hit) out-of-bounds case of
positional dataframe access. -/
def dummyScoredRow {α : Type} [LinearOrderedField α] : ScoredRow α :=
  ⟨⟨none, none, none, none⟩, "", 0, .jnull, 0, 0, 0, 0⟩

/-- `score_and_rank(comments, novelty, controversy, weights, topk)`.

Popularity is min-max-normalised `upvotes` when that column exists (i.e. some
input dict had the key), else a zero vector; assigning the `novelty` /
`controversy` arrays as columns raises (`Except.error`) when their length
differs from the frame's row count — pandas' "Length of values does not match
length of index"; the weight triple comes from `(list(weights)+[0,0,0])[:3]`;
`must_read_score` is the weighted sum; the frame is sorted descending on it by
pandas `nargsort` (numpy quicksort); `top` is `head(topk)`.  Rows are rebuilt
positionally, which is how a dataframe aligns its columns. -/
def score_and_rank {α : Type} [LinearOrderedField α]
    (merged : List (MergedRow α)) (novelty controversy : List α)
    (weights : List α) (topk : Int) :
    Except PyErr (List (ScoredRow α) × List (ScoredRow α)) :=
  letI : Inhabited α := ⟨0⟩
  let hasUpv := merged.any (fun r => r.c.upvotes.isSome)
  let pop :=
    if hasUpv then
      let pop0 := merged.map (fun r => (r.c.upvotes.getD none).getD 0)
      if 0 < pop0.length then minmaxNormN pop0.length pop0 else pop0
    else List.replicate merged.length 0
  if novelty.length = merged.length then
    if controversy.length = merged.length then
      match pyUnpack3 ((weights ++ [0, 0, 0]).take 3) with
      | none => .error .unpackMismatch
      | some (w1, w2, w3) =>
        let scores := List.zipWith3 (fun nv cv pv => w1 * nv + w2 * cv + w3 * pv)
          novelty controversy pop
        let rows := (List.range merged.length).map (fun i =>
          let m := (merged.getD i ⟨⟨none, none, none, none⟩, "", 0, .jnull, 0, 0⟩)
          ({ c := m.c, stance := m.stance, intensity := m.intensity, reason := m.reason
             novelty := novelty.getD i 0, controversy := controversy.getD i 0
             popularity := pop.getD i 0, must_read_score := scores.getD i 0 } : ScoredRow α))
        let dfSorted := applyIndexer rows (nargsortDesc scores) dummyScoredRow
        .ok (dfSorted, pyHead topk dfSorted)
    else .error (.lengthMismatch "controversy")
  else .error (.lengthMismatch "novelty")

/-! ## Controversy aggregator and the orchestrator -/

noncomputable section Orchestrator

/-- Binary-entropy summand `h(p) = -p·log2(p)`, `0` at `p ≤ 0`. -/
def entropyTerm (p : ℝ) : ℝ := if p ≤ 0 then 0 else -p * Real.logb 2 p

/-- `controversy_scores(stances, intensities)`.  The `counts[s]` dict lookup
would `KeyError` on a stance outside the three-value enum; the orchestrator
only ever passes validated stances, and the lookup is modelled totally with
the neutral count for other keys. -/
def controversy_scores (stances : List String) (intensities : List Int) : List ℝ :=
  let n := stances.length
  if n = 0 then []
  else
    let supportCount := (stances.filter (fun s => s = "support")).length
    let opposeCount := (stances.filter (fun s => s = "oppose")).length
    let total := supportCount + opposeCount
    let entropy : ℝ :=
      if total = 0 then 0
      else entropyTerm ((supportCount : ℝ) / total) + entropyTerm ((opposeCount : ℝ) / total)
    let avgIntensity :=
      npMean (intensities.map (fun i => ((max 1 (min 5 i) : Int) : ℝ))) / 5
    let base := 0.5 * entropy + 0.5 * avgIntensity
    let countOf : String → Nat := fun s =>
      if s = "support" then supportCount
      else if s = "oppose" then opposeCount
      else n - total
    let per := (List.zip stances intensities).map (fun si =>
      0.5 * base
        + 0.5 * ((1 - (countOf si.1 : ℝ) / (max 1 n : Nat)) * (((max 1 (min 5 si.2) : Int) : ℝ) / 5)))
    minmaxNormN n per

/-- The configuration record of `config.py`. -/
structure Config where
  ollama_host : String
  chat_model : String
  embed_model : String
  topk : Int
  max_summary_comments : Int
  weights : Option (List ℝ)

/-- Python truthiness of `c.get("text")`. -/
def textTruthy (c : Comment ℝ) : Bool :=
  match c.text with
  | some t => t ≠ ""
  | none => false

/-- An output record of `df_to_list`.  A column among `id`/`author`/`text` is
included only when some input dict carried the key; absence (or a NaN hole)
is modelled per record as `none`. -/
structure ResultComment where
  id : Option String
  author : Option String
  text : Option String
  stance : String
  intensity : Int
  reason : JVal
  novelty : ℝ
  controversy : ℝ
  popularity : ℝ
  must_read_score : ℝ

/-- The `config_used` echo in the result. -/
structure ConfigUsed where
  ollama_host : String
  chat_model : String
  embed_model : String
  topk : Int
  max_summary_comments : Int
deriving Repr

/-- The dictionary `analyze_comments` returns. -/
structure AnalysisResult where
  summary : SummaryOut
  top_comments : List ResultComment
  all_comments : List ResultComment
  config_used : ConfigUsed

/-- The `config_used` block. -/
def configUsed (cfg : Config) : ConfigUsed :=
  ⟨cfg.ollama_host, cfg.chat_model, cfg.embed_model, cfg.topk, cfg.max_summary_comments⟩

/-- `embed_texts` with its service-call log (no call for an empty batch). -/
def embed_textsL (env : Env) (model : String) (texts : List String) :
    List (List ℝ) × List SvcCall :=
  if texts = [] then ([], [])
  else (env.embedF model texts, [.embed model texts])

/-- The stance loop of `analyze_comments`: a textless comment receives
`(neutral, 2, "")` without any service call; an exception inside
`classify_stance` (`int()` on an unconvertible field) aborts the whole
invocation with only the calls already made. -/
def stanceLoop (env : Env) (model post : String) :
    List (Comment ℝ) → Except PyErr (List StanceRecord) × List SvcCall
  | [] => (.ok [], [])
  | c :: cs =>
    if textTruthy c then
      let ol := classify_stanceL env model (c.text.getD "") post
      match ol.1 with
      | none => (.error .intConvError, ol.2)
      | some r =>
        let rest := stanceLoop env model post cs
        (rest.1.map (fun rs => r :: rs), ol.2 ++ rest.2)
    else
      let rest := stanceLoop env model post cs
      (rest.1.map (fun rs => (⟨"neutral", 2, .jstr ""⟩ : StanceRecord) :: rs), rest.2)

/-- `np.mean(emb, axis=0)` over a rectangular batch; the `emb.size == 0` guard
yields the empty vector (`np.zeros(emb.shape[1])` is `zeros(0)` whenever that
expression does not itself raise). -/
def rowMean (rows : List (List ℝ)) : List ℝ :=
  match rows with
  | [] => []
  | r :: rs =>
    (List.range r.length).map (fun j =>
      ((r :: rs).map (fun row => row.getD j 0)).sum / ((r :: rs).length : ℝ))

/-- `zip(comments, stance_records, novelty, controversy)` merged into rows
(truncating at the shortest list, as `zip` does). -/
def zipMerge : List (Comment ℝ) → List StanceRecord → List ℝ → List ℝ → List (MergedRow ℝ)
  | c :: cs, s :: ss, nv :: nvs, cv :: cvs =>
    ⟨c, s.stance, s.intensity, s.reason, nv, cv⟩ :: zipMerge cs ss nvs cvs
  | _, _, _, _ => []

/-- One row of `df_to_list`. -/
def dfToListRow (r : ScoredRow ℝ) : ResultComment :=
  ⟨r.c.id, r.c.author, r.c.text, r.stance, r.intensity, r.reason,
   r.novelty, r.controversy, r.popularity, r.must_read_score⟩

/-- The shortcut result for an input without any non-empty text. -/
def emptyAnalysisResult (cfg : Config) : AnalysisResult :=
  ⟨⟨"", [], []⟩, [], [], configUsed cfg⟩

/-- `analyze_comments(comments, original_post, cfg)` together with the ordered
log of service calls it issues.  The shortcut path returns the empty result
without any call; the full path embeds the non-empty texts, scores novelty
with `k = min(topk, 10)`, classifies every comment (textless ones without a
call), aggregates controversy, selects representatives by MMR over the
centroid with `k = min(max_summary_comments, len(texts))`, generates the
summary, merges via `zip` and ranks.  `weights = cfg.weights or
(0.45, 0.45, 0.10)` (Python `or`: `None` and the empty sequence both fall
back). -/
def analyze_commentsL (env : Env) (comments : List (Comment ℝ)) (post : Option String)
    (cfg : Config) : Except PyErr AnalysisResult × List SvcCall :=
  let texts := comments.filterMap (fun c => if textTruthy c then c.text else none)
  if texts = [] then (.ok (emptyAnalysisResult cfg), [])
  else
    let el := embed_textsL env cfg.embed_model texts
    let emb := el.1
    let novelty := novelty_scores emb (min cfg.topk 10)
    let sl := stanceLoop env cfg.chat_model (post.getD "") comments
    match sl.1 with
    | .error e => (.error e, el.2 ++ sl.2)
    | .ok records =>
      let stances := records.map (fun r => r.stance)
      let intensities := records.map (fun r => r.intensity)
      let controversy := controversy_scores stances intensities
      let centroid := rowMean emb
      let repIdx := mmr centroid emb 0.65 (min cfg.max_summary_comments (texts.length : Int))
      let reps := repIdx.map (fun i => texts.getD i "")
      let gl := generate_summaryL env cfg.chat_model (post.getD "") reps
      let merged := zipMerge comments records novelty controversy
      let weights :=
        match cfg.weights with
        | none => [(0.45 : ℝ), 0.45, 0.10]
        | some ws => if ws = [] then [(0.45 : ℝ), 0.45, 0.10] else ws
      let res : Except PyErr AnalysisResult :=
        match score_and_rank merged novelty controversy weights cfg.topk with
        | .error e => .error e
        | .ok allTop =>
          .ok ⟨gl.1, allTop.2.map dfToListRow, allTop.1.map dfToListRow, configUsed cfg⟩
      (res, el.2 ++ sl.2 ++ gl.2)

/-- `analyze_comments`' return value (exceptions as `Except.error`). -/
def analyze_comments (env : Env) (comments : List (Comment ℝ)) (post : Option String)
    (cfg : Config) : Except PyErr AnalysisResult :=
  (analyze_commentsL env comments post cfg).1

end Orchestrator

/-! ## Concrete instances used by closed theorems -/

/-- One of 17 identically scored input rows (distinct ids, no upvotes,
`novelty = controversy = 0`). -/
def mkTiedRow (i : Nat) : MergedRow ℚ :=
  { c := { id := some (toString i), author := none, text := some "t", upvotes := none }
    stance := "neutral", intensity := 2, reason := .jnull, novelty := 0, controversy := 0 }

/-- 17 identically scored rows: enough to push numpy's introsort off its
(stable) insertion-sort small-segment path. -/
def merged17 : List (MergedRow ℚ) := (List.range 17).map mkTiedRow

/-- A zero score vector of matching length. -/
def zeros17 : List ℚ := List.replicate 17 0

/-- An environment whose chat endpoint answers a brace-free, non-JSON string
and whose `json.loads` always fails: the degenerate-response scenario. -/
def envPlain : Env :=
  { embedF := fun _ ts => ts.map (fun _ => [1])
    chatF := fun _ _ _ => "hello"
    loads := fun _ => none }

/-- An environment whose chat endpoint answers a string with a brace pair and
whose `json.loads` yields an object carrying an out-of-enum stance string. -/
def envBanana : Env :=
  { embedF := fun _ ts => ts.map (fun _ => [1])
    chatF := fun _ _ _ => "\x7bx\x7d"
    loads := fun _ => some [("stance", .jstr "banana"), ("intensity", .jnum 5)] }

/-- A small concrete configuration. -/
def cfgDemo : Config := ⟨"h", "chat", "embed", 5, 40, none⟩

/-- The same configuration with the invalid `topk = 0`. -/
def cfgTopk0 : Config := ⟨"h", "chat", "embed", 0, 40, none⟩

/-- A comment with text. -/
def cHi : Comment ℝ := { id := some "a", text := some "hi" }

/-- A comment without text. -/
def cNoText : Comment ℝ := { id := some "b" }

/-! # Theorems -/

/-! ### Helper lemmas about the numpy vector min/max and list access -/

theorem foldl_min_le_init {β : Type} [LinearOrder β] (l : List β) (a : β) :
    l.foldl min a ≤ a := by
  induction l generalizing a with
  | nil => simp
  | cons b bs ih => exact le_trans (ih (min a b)) (min_le_left a b)

theorem foldl_min_le_mem {β : Type} [LinearOrder β] {l : List β} {x : β} (h : x ∈ l) (a : β) :
    l.foldl min a ≤ x := by
  induction l generalizing a with
  | nil => cases h
  | cons b bs ih =>
    rcases List.mem_cons.mp h with rfl | hx
    · exact le_trans (foldl_min_le_init bs (min a x)) (min_le_right a x)
    · exact ih hx (min a b)

theorem le_foldl_max_init {β : Type} [LinearOrder β] (l : List β) (a : β) :
    a ≤ l.foldl max a := by
  induction l generalizing a with
  | nil => simp
  | cons b bs ih => exact le_trans (le_max_left a b) (ih (max a b))

theorem le_foldl_max_mem {β : Type} [LinearOrder β] {l : List β} {x : β} (h : x ∈ l) (a : β) :
    x ≤ l.foldl max a := by
  induction l generalizing a with
  | nil => cases h
  | cons b bs ih =>
    rcases List.mem_cons.mp h with rfl | hx
    · exact le_trans (le_max_right a x) (le_foldl_max_init bs (max a x))
    · exact ih hx (max a b)

theorem foldl_max_mem {β : Type} [LinearOrder β] (l : List β) (a : β) :
    l.foldl max a ∈ a :: l := by
  induction l generalizing a with
  | nil => simp
  | cons b bs ih =>
    have h := ih (max a b)
    rcases List.mem_cons.mp h with h1 | h1
    · rcases max_choice a b with h2 | h2
      · exact List.mem_cons.mpr (Or.inl (h1.trans h2))
      · exact List.mem_cons.mpr (Or.inr (List.mem_cons.mpr (Or.inl (h1.trans h2))))
    · exact List.mem_cons.mpr (Or.inr (List.mem_cons.mpr (Or.inr h1)))

theorem foldl_min_mem {β : Type} [LinearOrder β] (l : List β) (a : β) :
    l.foldl min a ∈ a :: l := by
  induction l generalizing a with
  | nil => simp
  | cons b bs ih =>
    have h := ih (min a b)
    rcases List.mem_cons.mp h with h1 | h1
    · rcases min_choice a b with h2 | h2
      · exact List.mem_cons.mpr (Or.inl (h1.trans h2))
      · exact List.mem_cons.mpr (Or.inr (List.mem_cons.mpr (Or.inl (h1.trans h2))))
    · exact List.mem_cons.mpr (Or.inr (List.mem_cons.mpr (Or.inr h1)))

theorem listMinD_le_of_mem {β : Type} [LinearOrder β] {l : List β} {x : β} (h : x ∈ l) (d : β) :
    listMinD l d ≤ x := by
  cases l with
  | nil => cases h
  | cons b bs =>
    unfold listMinD
    rcases List.mem_cons.mp h with rfl | hx
    · exact foldl_min_le_init bs x
    · exact foldl_min_le_mem hx b

theorem le_listMaxD_of_mem {β : Type} [LinearOrder β] {l : List β} {x : β} (h : x ∈ l) (d : β) :
    x ≤ listMaxD l d := by
  cases l with
  | nil => cases h
  | cons b bs =>
    unfold listMaxD
    rcases List.mem_cons.mp h with rfl | hx
    · exact le_foldl_max_init bs x
    · exact le_foldl_max_mem hx b

theorem listMinD_mem {β : Type} [LinearOrder β] {l : List β} (h : l ≠ []) (d : β) :
    listMinD l d ∈ l := by
  cases l with
  | nil => exact absurd rfl h
  | cons b bs => exact foldl_min_mem bs b

theorem listMaxD_mem {β : Type} [LinearOrder β] {l : List β} (h : l ≠ []) (d : β) :
    listMaxD l d ∈ l := by
  cases l with
  | nil => exact absurd rfl h
  | cons b bs => exact foldl_max_mem bs b

theorem getD_map_range {β : Type} (f : Nat → β) {n i : Nat} (h : i < n) (d : β) :
    ((List.range n).map f).getD i d = f i := by
  rw [List.getD_eq_getElem _ _ (by simpa using h)]
  simp

theorem length_filter_ne_range : ∀ n i : Nat, i < n →
    ((List.range n).filter (fun j => j ≠ i)).length = n - 1 := by
  intro n
  induction n with
  | zero => intro i h; omega
  | succ m ih =>
    intro i h
    rw [List.range_succ, List.filter_append, List.length_append]
    by_cases hi : i = m
    · subst hi
      have h1 : (List.range i).filter (fun j => j ≠ i) = List.range i := by
        apply List.filter_eq_self.mpr
        intro a ha
        simp only [List.mem_range] at ha
        simp only [decide_eq_true_eq]
        omega
      rw [h1]
      simp
    · have h2 := ih i (by omega)
      rw [h2]
      have h3 : ([m].filter (fun j => j ≠ i)) = [m] := by
        simp [Ne.symm hi]
      rw [h3]
      simp
      omega

theorem extract_json_line_of_fail (loads : Loads) (text : String)
    (h : extractFails loads text) : extract_json_line loads text = fallbackObj := by
  unfold extractFails at h
  unfold extract_json_line
  rcases h with h | h
  · simp [h]
  · by_cases hc : (pyFind text '{' = -1 ∨ pyRfind text '}' = -1 ∨ pyRfind text '}' ≤ pyFind text '{')
    · simp [hc]
    · simp [hc, h]

theorem classify_core_fallback (loads : Loads) (raw : String)
    (h : extract_json_line loads raw = fallbackObj) :
    classify_stance_core loads raw = some ⟨"neutral", 2, .jstr "fallback"⟩ := by
  unfold classify_stance_core
  rw [h]
  rfl

theorem classify_core_absent (loads : Loads) (raw : String) (o : JObj)
    (hb : ¬(pyFind raw '{' = -1 ∨ pyRfind raw '}' = -1 ∨ pyRfind raw '}' ≤ pyFind raw '{'))
    (hl : loads (pySlice raw (pyFind raw '{') (pyRfind raw '}' + 1)) = some o)
    (h1 : o.lookup "stance" = none) (h2 : o.lookup "intensity" = none)
    (h3 : o.lookup "reasons" = none) :
    classify_stance_core loads raw = some ⟨"neutral", 2, .jstr "fallback"⟩ := by
  have he : extract_json_line loads raw = o := by
    unfold extract_json_line
    simp [hb, hl]
  unfold classify_stance_core
  rw [he]
  simp [jget, h1, h2, h3]
  rfl

theorem classify_core_bounds (loads : Loads) (raw : String) (r : StanceRecord)
    (h : classify_stance_core loads raw = some r) :
    (r.stance = "support" ∨ r.stance = "oppose" ∨ r.stance = "neutral")
    ∧ 1 ≤ r.intensity ∧ r.intensity ≤ 5 := by
  unfold classify_stance_core at h
  dsimp only at h
  rcases hi : pyIntOfJVal (jget (extract_json_line loads raw) "intensity" (.jnum 2)) with _ | i0
  · rw [hi] at h
    simp at h
  · rw [hi] at h
    rcases hst : jget (extract_json_line loads raw) "stance" (.jstr "neutral")
      with _ | b | m | s | xs | kvs <;> rw [hst] at h
    · simp only [Option.some.injEq] at h
      subst h
      exact ⟨Or.inr (Or.inr rfl), by simp, by simp⟩
    · simp only [Option.some.injEq] at h
      subst h
      exact ⟨Or.inr (Or.inr rfl), by simp, by simp⟩
    · simp only [Option.some.injEq] at h
      subst h
      exact ⟨Or.inr (Or.inr rfl), by simp, by simp⟩
    · simp only [Option.some.injEq] at h
      subst h
      refine ⟨?_, by simp, by simp⟩
      by_cases hs : s = "support" ∨ s = "oppose" ∨ s = "neutral"
      · simp [hs]
      · simp [hs]
    · simp at h
    · simp at h

theorem classify_core_invalid_neutral (loads : Loads) (raw : String) (r : StanceRecord)
    (h : classify_stance_core loads raw = some r)
    (h1 : jget (extract_json_line loads raw) "stance" (.jstr "neutral") ≠ .jstr "support")
    (h2 : jget (extract_json_line loads raw) "stance" (.jstr "neutral") ≠ .jstr "oppose")
    (h3 : jget (extract_json_line loads raw) "stance" (.jstr "neutral") ≠ .jstr "neutral") :
    r.stance = "neutral" := by
  unfold classify_stance_core at h
  dsimp only at h
  rcases hi : pyIntOfJVal (jget (extract_json_line loads raw) "intensity" (.jnum 2)) with _ | i0
  · rw [hi] at h
    simp at h
  · rw [hi] at h
    rcases hst : jget (extract_json_line loads raw) "stance" (.jstr "neutral")
      with _ | b | m | s | xs | kvs <;> rw [hst] at h
    · simp only [Option.some.injEq] at h
      subst h
      rfl
    · simp only [Option.some.injEq] at h
      subst h
      rfl
    · simp only [Option.some.injEq] at h
      subst h
      rfl
    · rw [hst] at h1 h2 h3
      have hs : ¬(s = "support" ∨ s = "oppose" ∨ s = "neutral") := by
        rintro (hq | hq | hq) <;> subst hq
        · exact h1 rfl
        · exact h2 rfl
        · exact h3 rfl
      simp only [Option.some.injEq] at h
      subst h
      simp [hs]
    · simp at h
    · simp at h

theorem getD_replicate {β : Type} {n i : Nat} (h : i < n) (v d : β) :
    (List.replicate n v).getD i d = v := by
  rw [List.getD_eq_getElem _ _ (by simpa using h)]
  simp

/-! ### Novelty scorer lemmas -/

theorem simRowOffDiag_replicate {n : Nat} {v : List ℝ} {i : Nat} (hi : i < n) :
    simRowOffDiag (List.replicate n v) i = List.replicate (n - 1) (cosineSim v v) := by
  unfold simRowOffDiag
  rw [List.length_replicate]
  have hmap : ∀ j ∈ (List.range n).filter (fun j => j ≠ i),
      cosineSim ((List.replicate n v).getD i []) ((List.replicate n v).getD j [])
        = cosineSim v v := by
    intro j hj
    have hj' : j < n := List.mem_range.mp (List.mem_filter.mp hj).1
    rw [getD_replicate hi, getD_replicate hj']
  rw [List.map_congr_left hmap, List.map_const', length_filter_ne_range n i hi]

theorem sortRow_replicate (m : Nat) (c : ℝ) :
    sortRow (List.replicate m c) = List.replicate m c := by
  have hp := List.mergeSort_perm (List.replicate m c) (fun a b => decide (a ≤ b))
  have hmem : ∀ x ∈ sortRow (List.replicate m c), x = c := fun x hx =>
    List.eq_of_mem_replicate (hp.mem_iff.mp hx)
  have hl : (sortRow (List.replicate m c)).length = m := by
    unfold sortRow
    rw [hp.length_eq, List.length_replicate]
  have := List.eq_replicate_of_mem hmem
  rwa [hl] at this

theorem npMean_replicate {m : Nat} (hm : m ≠ 0) (c : ℝ) :
    npMean (List.replicate m c) = c := by
  unfold npMean
  rw [List.sum_replicate, List.length_replicate, nsmul_eq_mul]
  rw [mul_comm, mul_div_assoc, div_self (by exact_mod_cast hm), mul_one]

theorem novelty_scores_replicate {n : Nat} (v : List ℝ) (k : Int) (hn : 2 ≤ n) (hk : 1 ≤ k) :
    novelty_scores (List.replicate n v) k = List.replicate n 0 := by
  unfold novelty_scores
  rw [List.length_replicate, if_neg (by omega), if_neg (by omega)]
  have hraw : noveltyRaw (List.replicate n v) k
      = List.replicate n (1 - cosineSim v v) := by
    unfold noveltyRaw
    rw [List.length_replicate]
    have hpt : ∀ i ∈ List.range n,
        1 - npMean (npTailSlice (kEff k n) (sortRow (simRowOffDiag (List.replicate n v) i)))
          = 1 - cosineSim v v := by
      intro i hi
      have hi' : i < n := List.mem_range.mp hi
      rw [simRowOffDiag_replicate hi', sortRow_replicate]
      unfold npTailSlice kEff
      rw [if_pos (by omega : 1 ≤ min k (max 1 ((n : Int) - 1)))]
      rw [List.length_replicate, List.drop_replicate]
      rw [npMean_replicate (by omega)]
    rw [List.map_congr_left hpt, List.map_const', List.length_range]
  rw [hraw]
  unfold minmaxNormN
  dsimp only
  have hne : (List.replicate n (1 - cosineSim v v)) ≠ [] := by
    simp
    omega
  have h1 : listMinD (List.replicate n (1 - cosineSim v v)) 0 = 1 - cosineSim v v :=
    List.eq_of_mem_replicate (listMinD_mem hne 0)
  have h2 : listMaxD (List.replicate n (1 - cosineSim v v)) 0 = 1 - cosineSim v v :=
    List.eq_of_mem_replicate (listMaxD_mem hne 0)
  rw [h1, h2, if_pos (by norm_num)]

theorem novelty_scores_mem_unit (emb : List (List ℝ)) (k : Int) :
    ∀ x ∈ novelty_scores emb k, 0 ≤ x ∧ x ≤ 1 := by
  intro x hx
  unfold novelty_scores at hx
  split at hx
  · cases hx
  · split at hx
    · rw [List.mem_singleton] at hx
      norm_num [hx]
    · unfold minmaxNormN at hx
      dsimp only at hx
      split at hx
      · exact ⟨le_of_eq (List.eq_of_mem_replicate hx).symm,
          le_of_lt (lt_of_le_of_lt (le_of_eq (List.eq_of_mem_replicate hx)) one_pos)⟩
      · rename_i hspread
        rcases List.mem_map.mp hx with ⟨y, hy, rfl⟩
        have hmn := listMinD_le_of_mem hy (0 : ℝ)
        have hmx := le_listMaxD_of_mem hy (0 : ℝ)
        have hden : 0 < listMaxD (noveltyRaw emb k) 0 - listMinD (noveltyRaw emb k) 0 :=
          lt_of_lt_of_le (by norm_num) (not_lt.mp hspread)
        constructor
        · exact div_nonneg (by linarith) hden.le
        · exact (div_le_one hden).mpr (by linarith)

theorem noveltyRaw_eq_spec (emb : List (List ℝ)) (topk : Int)
    (hn : 2 ≤ emb.length) (hk : 1 ≤ topk) :
    noveltyRaw emb (min topk 10) = noveltySpecRaw emb topk := by
  unfold noveltyRaw noveltySpecRaw
  apply List.map_congr_left
  intro i hi
  have hi' : i < emb.length := List.mem_range.mp hi
  have hlen : (sortRow (simRowOffDiag emb i)).length = emb.length - 1 := by
    have hp := List.mergeSort_perm (simRowOffDiag emb i) (fun a b => decide (a ≤ b))
    rw [show (sortRow (simRowOffDiag emb i)).length = (simRowOffDiag emb i).length
        from hp.length_eq]
    unfold simRowOffDiag
    rw [List.length_map, length_filter_ne_range _ _ hi']
  have hkeff : kEff (min topk 10) emb.length = min topk (min 10 ((emb.length : Int) - 1)) := by
    unfold kEff
    omega
  rw [hkeff]
  congr 1
  unfold npTailSlice
  rw [if_pos (by omega : 1 ≤ min topk (min 10 ((emb.length : Int) - 1)))]
  rw [List.take_reverse]
  unfold npMean
  rw [List.sum_reverse, List.length_reverse]

/-- Claim C7: the novelty scorer returns `[]` for no embeddings and `[0.0]`
for a single one; every returned score lies in `[0,1]` (min-max
normalisation, with an all-zero vector below spread `1e-9`); for `N ≥ 2`
identical vectors the result is uniformly `0`; and on the pipeline's call
path (`k = min(topk, 10)`, positive `topk`) the raw novelty of each item is
`1` minus the mean of its `min(topk, 10, N-1)` largest pairwise cosine
similarities to the other items. -/
theorem novelty_scores_contract (emb : List (List ℝ)) (v : List ℝ) (k topk : Int) (n : Nat) :
    novelty_scores [] k = []
    ∧ novelty_scores [v] k = [0]
    ∧ (∀ x ∈ novelty_scores emb k, 0 ≤ x ∧ x ≤ 1)
    ∧ (2 ≤ n → 1 ≤ k → novelty_scores (List.replicate n v) k = List.replicate n 0)
    ∧ (2 ≤ emb.length → 1 ≤ topk →
        noveltyRaw emb (min topk 10) = noveltySpecRaw emb topk) :=
  ⟨rfl, rfl, novelty_scores_mem_unit emb k,
   fun hn hk => novelty_scores_replicate v k hn hk,
   fun hn hk => noveltyRaw_eq_spec emb topk hn hk⟩

/-- Witness for C7 at concrete inputs: two identical one-dimensional
embeddings yield novelty `[0, 0]`, and the raw-novelty refinement holds
there. -/
theorem novelty_scores_contract_witness :
    novelty_scores (List.replicate 2 [(1 : ℝ)]) 7 = List.replicate 2 0
    ∧ noveltyRaw [[(1 : ℝ)], [(1 : ℝ)]] (min 3 10) = noveltySpecRaw [[(1 : ℝ)], [(1 : ℝ)]] 3 :=
  ⟨(novelty_scores_contract [] [(1 : ℝ)] 7 3 2).2.2.2.1 (by norm_num) (by norm_num),
   (novelty_scores_contract [[(1 : ℝ)], [(1 : ℝ)]] [] 7 3 2).2.2.2.2 (by norm_num) (by norm_num)⟩

/-! ### MMR lemmas -/

theorem argmaxIdx_spec {β : Type} [LinearOrder β] {l : List β} (h : l ≠ []) (d : β) :
    argmaxIdx l d < l.length ∧ ∀ i < l.length, l.getD i d ≤ l.getD (argmaxIdx l d) d := by
  have hmem : listMaxD l d ∈ l := listMaxD_mem h d
  have hlt : l.findIdx (fun y => decide (y = listMaxD l d)) < l.length :=
    List.findIdx_lt_length_of_exists ⟨_, hmem, by simp⟩
  refine ⟨hlt, ?_⟩
  intro i hi
  have hval : l.getD (argmaxIdx l d) d = listMaxD l d := by
    unfold argmaxIdx
    rw [List.getD_eq_getElem _ _ hlt]
    have := List.findIdx_getElem (w := hlt)
    simpa using this
  rw [hval]
  rw [List.getD_eq_getElem _ _ hi]
  exact le_listMaxD_of_mem (List.getElem_mem hi) d

theorem mmrLoop_prefix (simq : List ℝ) (cands : List (List ℝ)) (lam : ℝ) (k : Int) :
    ∀ (fuel : Nat) (sel rem : List Nat), sel <+: mmrLoop simq cands lam k fuel sel rem := by
  intro fuel
  induction fuel with
  | zero => intro sel rem; exact List.prefix_rfl
  | succ f ih =>
    intro sel rem
    cases sel with
    | nil =>
      simp only [mmrLoop]
      split
      · exact List.prefix_rfl
      · exact List.nil_prefix
    | cons s ss =>
      simp only [mmrLoop]
      split
      · exact List.prefix_rfl
      · split
        · exact List.prefix_rfl
        · exact List.IsPrefix.trans (List.prefix_append _ _) (ih _ _)

theorem mmrLoop_nodup (simq : List ℝ) (cands : List (List ℝ)) (lam : ℝ) (k : Int) :
    ∀ (fuel : Nat) (sel rem : List Nat), sel.Nodup → rem.Nodup →
      (∀ i ∈ rem, i ∉ sel) → (mmrLoop simq cands lam k fuel sel rem).Nodup := by
  intro fuel
  induction fuel with
  | zero => intro sel rem hs _ _; exact hs
  | succ f ih =>
    intro sel rem hs hr hd
    cases sel with
    | nil =>
      simp only [mmrLoop]
      split
      · exact hs
      · apply ih
        · exact List.nodup_singleton _
        · exact hr.erase _
        · intro i hi
          have := (hr.mem_erase_iff.mp hi).1
          simp [this]
    | cons s ss =>
      simp only [mmrLoop]
      split
      · exact hs
      · split
        · exact hs
        · rename_i hne
          have hni : (argmaxIdx ((List.range cands.length).map (fun i =>
              if i ∈ (s :: ss : List Nat) then (⊥ : WithBot ℝ)
              else ((lam * simq.getD i 0 - (1 - lam) * maxSimSel cands i (s :: ss) : ℝ)
                : WithBot ℝ))) ⊥) ∉ (s :: ss : List Nat) := by
            intro hmem
            apply hne
            by_cases hlt : (argmaxIdx ((List.range cands.length).map (fun i =>
                if i ∈ (s :: ss : List Nat) then (⊥ : WithBot ℝ)
                else ((lam * simq.getD i 0 - (1 - lam) * maxSimSel cands i (s :: ss) : ℝ)
                  : WithBot ℝ))) ⊥) < cands.length
            · rw [getD_map_range _ hlt]
              exact if_pos hmem
            · exact List.getD_eq_default _ _ (by simpa using not_lt.mp hlt)
          apply ih
          · rw [List.nodup_append]
            exact ⟨hs, List.nodup_singleton _, by
              intro a ha hb
              rw [List.mem_singleton] at hb
              subst hb
              exact hni ha⟩
          · exact hr.erase _
          · intro i hi
            have h1 := (hr.mem_erase_iff.mp hi).1
            have h2 := hd i (hr.mem_erase_iff.mp hi).2
            simp only [List.mem_append, List.mem_singleton]
            rintro (h | h)
            · exact h2 h
            · exact h1 h

theorem mmrLoop_length (simq : List ℝ) (cands : List (List ℝ)) (lam : ℝ) (k : Int) :
    ∀ (fuel : Nat) (sel rem : List Nat), (sel.length : Int) ≤ k →
      ((mmrLoop simq cands lam k fuel sel rem).length : Int) ≤ k := by
  intro fuel
  induction fuel with
  | zero => intro sel rem hs; exact hs
  | succ f ih =>
    intro sel rem hs
    cases sel with
    | nil =>
      simp only [mmrLoop]
      split
      · exact hs
      · rename_i hguard
        push_neg at hguard
        apply ih
        have h0 := hguard.2
        simp only [List.length_nil] at h0
        simp only [List.length_singleton]
        push_cast at h0 ⊢
        omega
    | cons s ss =>
      simp only [mmrLoop]
      split
      · exact hs
      · rename_i hguard
        push_neg at hguard
        split
        · exact hs
        · apply ih
          have hlt := hguard.2
          simp only [List.length_append, List.length_singleton]
          push_cast at hlt ⊢
          omega

theorem mmr_head (query : List ℝ) (cands : List (List ℝ)) (lam : ℝ) (k : Int)
    (hc : cands ≠ []) (hk : 1 ≤ k) :
    ∃ tl, mmr query cands lam k
        = argmaxIdx (cands.map (fun c => cosineSim c query)) 0 :: tl := by
  unfold mmr
  rw [if_neg (by simpa using hc)]
  simp only [mmrLoop]
  rw [if_neg (by
    rw [not_or]
    constructor
    · simp only [ne_eq, List.range_eq_nil]
      intro h0
      exact hc (List.length_eq_zero.mp h0)
    · simp only [List.length_nil, not_not]
      push_cast
      omega)]
  obtain ⟨t, ht⟩ := mmrLoop_prefix (cands.map fun c => cosineSim c query) cands lam k
    cands.length [argmaxIdx (cands.map fun c => cosineSim c query) 0]
    ((List.range cands.length).erase (argmaxIdx (cands.map fun c => cosineSim c query) 0))
  exact ⟨t, ht.symm⟩

/-- Claim C8: for every query vector, candidate matrix, λ and bound `k`,
`mmr` returns pairwise distinct indices, at most `k` of them (for the
non-negative `k` a bound means), and — when candidates exist and at least one
pick is allowed — its first selected index is `np.argmax` of the cosine
similarities to the query, which maximises that similarity over all
candidates. -/
theorem mmr_contract (query : List ℝ) (cands : List (List ℝ)) (lam : ℝ) (k : Int) :
    (mmr query cands lam k).Nodup
    ∧ (0 ≤ k → ((mmr query cands lam k).length : Int) ≤ k)
    ∧ (cands ≠ [] → 1 ≤ k →
        mmr query cands lam k ≠ []
        ∧ (mmr query cands lam k).headD 0
            = argmaxIdx (cands.map (fun c => cosineSim c query)) 0
        ∧ ∀ i < cands.length,
            (cands.map (fun c => cosineSim c query)).getD i 0
              ≤ (cands.map (fun c => cosineSim c query)).getD
                  (argmaxIdx (cands.map (fun c => cosineSim c query)) 0) 0) := by
  refine ⟨?_, ?_, ?_⟩
  · unfold mmr
    split
    · exact List.nodup_nil
    · exact mmrLoop_nodup _ _ _ _ _ _ _ List.nodup_nil (List.nodup_range _) (by simp)
  · intro hk
    unfold mmr
    split
    · simpa using hk
    · exact mmrLoop_length _ _ _ _ _ _ _ (by simpa using hk)
  · intro hc hk
    obtain ⟨tl, htl⟩ := mmr_head query cands lam k hc hk
    refine ⟨by rw [htl]; simp, by rw [htl]; rfl, ?_⟩
    have hs : (cands.map (fun c => cosineSim c query)) ≠ [] := by simpa using hc
    have hspec := (argmaxIdx_spec hs (0 : ℝ)).2
    intro i hi
    exact hspec i (by simpa using hi)

/-- Witness for C8 at a concrete input: a single one-dimensional candidate. -/
theorem mmr_contract_witness :
    ((mmr [(1 : ℝ)] [[(1 : ℝ)]] 0.65 12).length : Int) ≤ 12
    ∧ mmr [(1 : ℝ)] [[(1 : ℝ)]] 0.65 12 ≠ []
    ∧ (mmr [(1 : ℝ)] [[(1 : ℝ)]] 0.65 12).headD 0
        = argmaxIdx ([[(1 : ℝ)]].map (fun c => cosineSim c [(1 : ℝ)])) 0 := by
  have h := mmr_contract [(1 : ℝ)] [[(1 : ℝ)]] 0.65 12
  have h3 := h.2.2 (by simp) (by norm_num)
  exact ⟨h.2.1 (by norm_num), h3.1, h3.2.1⟩

/-- Claim C4: for every chat response, `classify_stance` parses the substring
from the first opening brace to the last closing brace (the source's "first
JSON block") via `json.loads`; on any extraction or parse failure it returns
the deterministic fallback record (stance `neutral`, intensity `2`, reason
`fallback`); the same fallback is returned when the parsed object carries none
of the required fields; any stance outside the three-value enum — an invalid
string as well as a non-string value — yields a record whose stance field is
exactly `neutral` (last conjunct; the parsed stance value being none of the
three enum strings forces the returned stance to be `"neutral"`, not merely a
member of the enum); and whenever the classifier returns, its intensity lies
in `[1,5]`. -/
theorem classify_stance_contract (env : Env) (model comment post : String) :
    (∀ r, classify_stance env model comment post = some r →
       (r.stance = "support" ∨ r.stance = "oppose" ∨ r.stance = "neutral")
       ∧ 1 ≤ r.intensity ∧ r.intensity ≤ 5)
    ∧ (extractFails env.loads (stanceRaw env model comment post) →
       classify_stance env model comment post = some ⟨"neutral", 2, .jstr "fallback"⟩)
    ∧ (∀ o : JObj,
       ¬(pyFind (stanceRaw env model comment post) '{' = -1
         ∨ pyRfind (stanceRaw env model comment post) '}' = -1
         ∨ pyRfind (stanceRaw env model comment post) '}'
             ≤ pyFind (stanceRaw env model comment post) '{') →
       env.loads (pySlice (stanceRaw env model comment post)
           (pyFind (stanceRaw env model comment post) '{')
           (pyRfind (stanceRaw env model comment post) '}' + 1)) = some o →
       o.lookup "stance" = none → o.lookup "intensity" = none →
       o.lookup "reasons" = none →
       classify_stance env model comment post = some ⟨"neutral", 2, .jstr "fallback"⟩)
    ∧ (∀ r, classify_stance env model comment post = some r →
       jget (extract_json_line env.loads (stanceRaw env model comment post)) "stance"
           (.jstr "neutral") ≠ .jstr "support" →
       jget (extract_json_line env.loads (stanceRaw env model comment post)) "stance"
           (.jstr "neutral") ≠ .jstr "oppose" →
       jget (extract_json_line env.loads (stanceRaw env model comment post)) "stance"
           (.jstr "neutral") ≠ .jstr "neutral" →
       r.stance = "neutral") := by
  refine ⟨?_, ?_, ?_, ?_⟩
  · intro r h
    exact classify_core_bounds env.loads (stanceRaw env model comment post) r h
  · intro hf
    exact classify_core_fallback _ _ (extract_json_line_of_fail _ _ hf)
  · intro o hb hl h1 h2 h3
    exact classify_core_absent _ _ o hb hl h1 h2 h3
  · intro r h h1 h2 h3
    exact classify_core_invalid_neutral env.loads (stanceRaw env model comment post) r h h1 h2 h3

/-- Witness for C4 at concrete inputs: `envPlain`'s chat answer "hello" has no
brace pair, so the classifier returns the fallback record; `envBanana`'s
parsed stance "banana" is outside the enum, so the returned record's stance is
exactly "neutral". -/
theorem classify_stance_contract_witness :
    classify_stance envPlain "m" "c" "p" = some ⟨"neutral", 2, .jstr "fallback"⟩
    ∧ classify_stance envBanana "m" "c" "p" = some ⟨"neutral", 5, .jstr "fallback"⟩
    ∧ (⟨"neutral", 5, .jstr "fallback"⟩ : StanceRecord).stance = "neutral" :=
  ⟨(classify_stance_contract envPlain "m" "c" "p").2.1 (Or.inl (Or.inl (by decide))),
   by rfl,
   (classify_stance_contract envBanana "m" "c" "p").2.2.2 ⟨"neutral", 5, .jstr "fallback"⟩
     (by rfl)
     (by intro hc
         rw [show jget (extract_json_line envBanana.loads (stanceRaw envBanana "m" "c" "p"))
             "stance" (.jstr "neutral") = JVal.jstr "banana" from rfl] at hc
         simp at hc)
     (by intro hc
         rw [show jget (extract_json_line envBanana.loads (stanceRaw envBanana "m" "c" "p"))
             "stance" (.jstr "neutral") = JVal.jstr "banana" from rfl] at hc
         simp at hc)
     (by intro hc
         rw [show jget (extract_json_line envBanana.loads (stanceRaw envBanana "m" "c" "p"))
             "stance" (.jstr "neutral") = JVal.jstr "banana" from rfl] at hc
         simp at hc)⟩

/-- Claim C5 (evaluation at the failing input): on the unparseable chat
response "hello", `generate_summary` returns an **empty** `executive_summary`
(with empty lists), not the raw response text: the `try/except` fallback that
would return the raw text is dead code because `_extract_json_line` absorbs
the parse failure first, handing `_parse_summary_output` the stance-shaped
fallback object, whose `executive_summary` field is missing. -/
theorem generate_summary_parse_failure_drops_raw_text :
    generate_summary envPlain "m" "post" [] = ⟨"", [], []⟩
    ∧ generate_summary envPlain "m" "post" [] ≠ ⟨pyStrip "hello", [], []⟩ := by
  constructor
  · decide
  · decide

theorem score_and_rank_top_take {α : Type} [LinearOrderedField α]
    (merged : List (MergedRow α)) (novelty controversy weights : List α)
    (topk : Int) (allRows topRows : List (ScoredRow α))
    (htop : 0 ≤ topk)
    (h : score_and_rank merged novelty controversy weights topk = .ok (allRows, topRows)) :
    topRows <+: allRows ∧ topRows.length = min topk.toNat allRows.length := by
  unfold score_and_rank at h
  split at h
  · split at h
    · rcases hu : pyUnpack3 ((weights ++ [0, 0, 0]).take 3) with _ | ⟨w1, w2, w3⟩ <;>
        rw [hu] at h
      · simp at h
      · simp only [Except.ok.injEq, Prod.mk.injEq] at h
        obtain ⟨ha, ht⟩ := h
        subst ha
        subst ht
        unfold pyHead
        rw [if_pos htop]
        exact ⟨⟨_, List.take_append_drop _ _⟩, List.length_take _ _⟩
    · simp at h
  · simp at h

/-- Claim C2: whenever `score_and_rank` returns (no pandas exception), the
`top` frame is exactly the prefix of the sorted `all` frame of length
`min(topk, |all|)` (for the non-negative `topk` the configuration promises);
consequently every `analyze_comments` result — shortcut or full path — has
`top_comments` exactly the prefix of `all_comments` of length
`min(topk, |all_comments|)`. -/
theorem score_and_rank_top_prefix_and_length {α : Type} [LinearOrderedField α]
    (merged : List (MergedRow α)) (novelty controversy weights : List α)
    (topk : Int) (allRows topRows : List (ScoredRow α))
    (env : Env) (comments : List (Comment ℝ)) (post : Option String) (cfg : Config)
    (res : AnalysisResult) :
    (0 ≤ topk →
      score_and_rank merged novelty controversy weights topk = .ok (allRows, topRows) →
      topRows <+: allRows ∧ topRows.length = min topk.toNat allRows.length)
    ∧ (0 ≤ cfg.topk → analyze_comments env comments post cfg = .ok res →
      res.top_comments <+: res.all_comments
      ∧ res.top_comments.length = min cfg.topk.toNat res.all_comments.length) := by
  constructor
  · intro htop h
    exact score_and_rank_top_take merged novelty controversy weights topk allRows topRows htop h
  · intro htk hres
    unfold analyze_comments analyze_commentsL at hres
    by_cases ht : comments.filterMap (fun c => if textTruthy c then c.text else none) = []
    · rw [ht, if_pos rfl] at hres
      simp only [Except.ok.injEq] at hres
      subst hres
      simp [emptyAnalysisResult]
    · rw [if_neg ht] at hres
      dsimp only at hres
      rcases hsl : (stanceLoop env cfg.chat_model (post.getD "") comments).1 with e | records <;>
        rw [hsl] at hres
      · simp at hres
      · dsimp only at hres
        rcases hsr : score_and_rank
            (zipMerge comments records
              (novelty_scores
                (embed_textsL env cfg.embed_model
                  (comments.filterMap (fun c => if textTruthy c then c.text else none))).1
                (min cfg.topk 10))
              (controversy_scores (records.map fun r => r.stance)
                (records.map fun r => r.intensity)))
            (novelty_scores
              (embed_textsL env cfg.embed_model
                (comments.filterMap (fun c => if textTruthy c then c.text else none))).1
              (min cfg.topk 10))
            (controversy_scores (records.map fun r => r.stance)
              (records.map fun r => r.intensity))
            (match cfg.weights with
              | none => [(0.45 : ℝ), 0.45, 0.10]
              | some ws => if ws = [] then [(0.45 : ℝ), 0.45, 0.10] else ws)
            cfg.topk with e2 | p <;> rw [hsr] at hres
        · simp at hres
        · simp only [Except.ok.injEq] at hres
          subst hres
          have hp := score_and_rank_top_take _ _ _ _ _ p.1 p.2 htk hsr
          refine ⟨hp.1.map dfToListRow, ?_⟩
          simp only [List.length_map]
          exact hp.2

/-- Witness for C2 at concrete inputs (the empty frame with `topk = 0`, and
the shortcut `analyze_comments` run). -/
theorem score_and_rank_top_prefix_and_length_witness :
    (([] : List (ScoredRow ℚ)) <+: ([] : List (ScoredRow ℚ))
      ∧ ([] : List (ScoredRow ℚ)).length
          = min (0 : Int).toNat ([] : List (ScoredRow ℚ)).length)
    ∧ ((emptyAnalysisResult cfgDemo).top_comments <+: (emptyAnalysisResult cfgDemo).all_comments
      ∧ (emptyAnalysisResult cfgDemo).top_comments.length
          = min cfgDemo.topk.toNat (emptyAnalysisResult cfgDemo).all_comments.length) :=
  ⟨(score_and_rank_top_prefix_and_length ([] : List (MergedRow ℚ)) [] [] [] 0 [] []
      envPlain [] none cfgDemo (emptyAnalysisResult cfgDemo)).1 (by decide) (by rfl),
   (score_and_rank_top_prefix_and_length ([] : List (MergedRow ℚ)) [] [] [] 0 [] []
      envPlain [] none cfgDemo (emptyAnalysisResult cfgDemo)).2 (by decide) (by rfl)⟩

/-- Claim C10: the weight triple is `(list(weights)+[0,0,0])[:3]`: unpacking
never fails, missing entries act as `0`, and entries beyond the first three
never influence `score_and_rank`. -/
theorem score_and_rank_weights_first_three {α : Type} [LinearOrderedField α]
    (merged : List (MergedRow α)) (novelty controversy : List α) (ws : List α) (topk : Int) :
    pyUnpack3 ((ws ++ [0, 0, 0]).take 3) = some (ws.getD 0 0, ws.getD 1 0, ws.getD 2 0)
    ∧ score_and_rank merged novelty controversy ws topk
        = score_and_rank merged novelty controversy (ws.take 3) topk := by
  have hpad : (ws ++ [0, 0, 0]).take 3 = (ws.take 3 ++ [0, 0, 0]).take 3 := by
    rcases ws with _ | ⟨a, _ | ⟨b, _ | ⟨c, rest⟩⟩⟩ <;> simp
  constructor
  · rcases ws with _ | ⟨a, _ | ⟨b, _ | ⟨c, rest⟩⟩⟩ <;> rfl
  · unfold score_and_rank
    rw [hpad]

set_option maxRecDepth 40000 in
/-- Claim C3 (evaluation at the failing input): 17 comments whose
`must_read_score`s are all equal (every score is `0`) come back from
`score_and_rank`'s sort in the order `0,9,15,14,...` — not the original input
order — because `DataFrame.sort_values` defaults to numpy's unstable
quicksort (introsort); the spec's required stable-tie behaviour does not hold. -/
theorem score_and_rank_ties_permuted :
    ((score_and_rank merged17 zeros17 zeros17 [(0.45 : ℚ), 0.45, 0.10] 10).toOption.map
        (fun p => p.1.map (fun r => r.must_read_score)))
      = some (List.replicate 17 (0 : ℚ))
    ∧ ((score_and_rank merged17 zeros17 zeros17 [(0.45 : ℚ), 0.45, 0.10] 10).toOption.map
        (fun p => p.1.map (fun r => r.c.id)))
      ≠ some (merged17.map (fun r => r.c.id)) := by
  have hz : List.zipWith3 (fun nv cv pv => (0.45 : ℚ) * nv + 0.45 * cv + 0.10 * pv)
      zeros17 zeros17 (List.replicate 17 0) = zeros17 := by
    simp [zeros17, List.zipWith3, List.replicate]
  unfold score_and_rank
  dsimp only
  rw [show (merged17.any fun r => r.c.upvotes.isSome) = false from rfl]
  simp only [Bool.false_eq_true, if_false,
    show zeros17.length = 17 from rfl, show merged17.length = 17 from rfl,
    eq_self_iff_true, if_true]
  rw [show pyUnpack3 (List.take 3 ([(0.45 : ℚ), 0.45, 0.10] ++ [0, 0, 0]))
        = some (0.45, 0.45, 0.10) from rfl]
  dsimp only
  rw [hz]
  constructor
  · decide
  · decide

/-- Claim C6: when no input comment has non-empty text (in particular for the
empty list), `analyze_comments` returns the shortcut result: empty summary
triple, empty `top_comments` and `all_comments`, and the `config_used` echo. -/
theorem analyze_comments_shortcut (env : Env) (comments : List (Comment ℝ))
    (post : Option String) (cfg : Config)
    (h : ∀ c ∈ comments, textTruthy c = false) :
    analyze_comments env comments post cfg
      = .ok ⟨⟨"", [], []⟩, [], [],
          ⟨cfg.ollama_host, cfg.chat_model, cfg.embed_model,
           cfg.topk, cfg.max_summary_comments⟩⟩ := by
  have ht : comments.filterMap (fun c => if textTruthy c then c.text else none) = [] := by
    rw [List.filterMap_eq_nil_iff]
    intro c hc
    rw [h c hc]
    rfl
  unfold analyze_comments analyze_commentsL
  dsimp only
  rw [ht, if_pos rfl]
  rfl

/-- Witness for C6 at the concrete empty input. -/
theorem analyze_comments_shortcut_witness :
    analyze_comments envPlain [] none cfgDemo
      = .ok ⟨⟨"", [], []⟩, [], [], ⟨"h", "chat", "embed", 5, 40⟩⟩ :=
  analyze_comments_shortcut envPlain [] none cfgDemo (by simp)

/-- Claim C1 (evaluation at the failing input): with one comment carrying text
and one without, `analyze_comments` does not return an `all_comments` list of
length 2 — it raises.  The `zip` merge truncates at the novelty vector (which
only covers comments with text), so the dataframe has 1 row while the
controversy column has 2 entries, and the column assignment raises pandas'
length-mismatch `ValueError`. -/
theorem analyze_comments_textless_crash :
    analyze_comments envPlain [cHi, cNoText] none cfgDemo
      = .error (.lengthMismatch "controversy") := by
  have hcontro : controversy_scores ["neutral", "neutral"] [2, 2] = [0, 0] := by
    simp [controversy_scores, minmaxNormN, listMinD, listMaxD, npMean]
  unfold analyze_comments analyze_commentsL
  rw [show ([cHi, cNoText].filterMap fun c => if textTruthy c then c.text else none)
        = ["hi"] from rfl]
  rw [if_neg (by simp)]
  dsimp only
  rw [show stanceLoop envPlain cfgDemo.chat_model (Option.getD none "") [cHi, cNoText]
        = (.ok [⟨"neutral", 2, .jstr "fallback"⟩, ⟨"neutral", 2, .jstr ""⟩],
           [.chat "chat" SYSTEM_PROMPT (stanceUserPrompt "" "hi")]) from rfl]
  dsimp only
  rw [show (List.map (fun r => StanceRecord.stance r)
        [(⟨"neutral", 2, .jstr "fallback"⟩ : StanceRecord), ⟨"neutral", 2, .jstr ""⟩])
      = ["neutral", "neutral"] from rfl]
  rw [show (List.map (fun r => StanceRecord.intensity r)
        [(⟨"neutral", 2, .jstr "fallback"⟩ : StanceRecord), ⟨"neutral", 2, .jstr ""⟩])
      = [2, 2] from rfl]
  rw [hcontro]
  rw [show novelty_scores (embed_textsL envPlain cfgDemo.embed_model ["hi"]).1
        (min cfgDemo.topk 10) = [0] from rfl]
  rfl

/-- Claim C9 (counterexample): the invalid configuration `topk = 0` is not
rejected at the call boundary — `analyze_comments` proceeds and issues its
service calls (the log is non-empty, starting with the embedding call). -/
theorem analyze_comments_invalid_topk_still_calls :
    (analyze_commentsL envPlain [cHi] none cfgTopk0).2 ≠ [] := by
  unfold analyze_commentsL
  rw [show ([cHi].filterMap fun c => if textTruthy c then c.text else none)
        = ["hi"] from rfl]
  rw [if_neg (by simp)]
  dsimp only
  rcases hsl : (stanceLoop envPlain cfgTopk0.chat_model (Option.getD none "") [cHi]).1
    with e | records
  · simp [embed_textsL]
  · simp [embed_textsL]

/-- Claim C9 (amended): no configuration validation exists; the service calls
`analyze_comments` issues are identical for any `topk` and `weights` — in
particular a non-positive `topk` or a malformed weight vector neither aborts
the invocation before the calls nor changes which calls are made. -/
theorem analyze_comments_calls_ignore_topk_weights (env : Env)
    (comments : List (Comment ℝ)) (post : Option String) (cfg : Config)
    (t : Int) (w : Option (List ℝ)) :
    (analyze_commentsL env comments post
        ⟨cfg.ollama_host, cfg.chat_model, cfg.embed_model, t,
         cfg.max_summary_comments, w⟩).2
      = (analyze_commentsL env comments post cfg).2 := by
  unfold analyze_commentsL
  by_cases ht : comments.filterMap (fun c => if textTruthy c then c.text else none) = []
  · rw [ht]
    simp
  · rw [if_neg ht, if_neg ht]
    dsimp only
    rcases (stanceLoop env cfg.chat_model (post.getD "") comments).1 with e | records
    · rfl
    · rfl

end HN
